import Mathlib

/-!
Shallow embedding of `src/scripts/fetch-pdb-metadata.py` (pbd-viewer).

JSON documents returned by the remote API are modelled by `JValue`.
Python truthiness, `in`, item access, `str.strip` / `str.lower` /
`str.startswith` / `str.split(',')` and `x in s` (substring) are embedded
explicitly over `List Char`, so everything evaluates in the kernel.
A network interaction is abstracted as a `FetchOutcome`: either an exception
raised inside the `try` block (transport error or JSON decode error), or a
status code together with the decoded body.  Python exceptions raised by the
embedded code itself are modelled with `Except Unit`.
-/

namespace Pdb

/-- A JSON value, as produced by `response.json()`. Numbers are modelled by
`Int` (no claim inspects a numeric value beyond truthiness). Objects keep
their key order. -/
inductive JValue where
  | null
  | bool (b : Bool)
  | num (n : Int)
  | str (s : String)
  | arr (xs : List JValue)
  | obj (fs : List (String × JValue))

/-- Dictionary lookup, first matching key wins. -/
def jlookup (fs : List (String × JValue)) (k : String) : Option JValue :=
  match fs with
  | [] => none
  | (k', v) :: rest => if k' = k then some v else jlookup rest k

/-- Python truthiness of a JSON value. -/
def truthy : JValue → Bool
  | JValue.null => false
  | JValue.bool b => b
  | JValue.num n => decide (n ≠ 0)
  | JValue.str s => decide (s ≠ "")
  | JValue.arr xs => !xs.isEmpty
  | JValue.obj fs => !fs.isEmpty

/-- `listStartsWith pat l` : does `l` start with `pat`? -/
def listStartsWith : List Char → List Char → Bool
  | [], _ => true
  | _ :: _, [] => false
  | p :: ps, c :: cs => p = c && listStartsWith ps cs

/-- `listHasSub pat l` : does `pat` occur as a contiguous run inside `l`? -/
def listHasSub (pat : List Char) : List Char → Bool
  | [] => pat.isEmpty
  | c :: cs => listStartsWith pat (c :: cs) || listHasSub pat cs

/-- Python `sub in s` (substring containment). -/
def strContains (s sub : String) : Bool := listHasSub sub.data s.data

/-- Python `s.startswith(pre)`. -/
def pyStartsWith (s pre : String) : Bool := listStartsWith pre.data s.data

/-- Python `s.lower()` (ASCII case folding suffices for this program). -/
def pyLower (s : String) : String := String.mk (s.data.map Char.toLower)

/-- Python `s.strip()` on the character list: drop whitespace from both ends. -/
def stripChars (l : List Char) : List Char :=
  List.rdropWhile Char.isWhitespace (l.dropWhile Char.isWhitespace)

/-- Python `s.strip()`. -/
def strip (s : String) : String := String.mk (stripChars s.data)

/-- `splitChar c l` : split `l` at every occurrence of `c`
(Python `s.split(c)` for a one-character separator; always nonempty). -/
def splitChar (c : Char) : List Char → List (List Char)
  | [] => [[]]
  | x :: xs =>
    match splitChar c xs with
    | h :: t => if x = c then [] :: h :: t else (x :: h) :: t
    | [] => [[x]]

/-- Python `s.split(',')`. -/
def pySplitComma (s : String) : List String :=
  (splitChar ',' s.data).map (fun l => String.mk l)

/-- A step of the defensive nested path of `get_nested_value`:
either a dict key or a list index. -/
inductive PathKey where
  | k (s : String)
  | i (n : Nat)

/-- `get_nested_value` from the source: walk a dict/list path, returning
`none` on any shape mismatch, absent key, or out-of-range index. -/
def get_nested_value : JValue → List PathKey → Option JValue
  | v, [] => some v
  | v, PathKey.i n :: rest =>
    match v with
    | JValue.arr xs =>
      if h : n < xs.length then get_nested_value (xs.get ⟨n, h⟩) rest else none
    | _ => none
  | v, PathKey.k s :: rest =>
    match v with
    | JValue.obj fs =>
      match jlookup fs s with
      | some x => get_nested_value x rest
      | none => none
    | _ => none

/-- Outcome of one HTTP interaction inside a `try` block: `exn` models a
transport failure or a body that fails to decode as JSON; `ok status body`
models a reply with the given status code and decoded body. -/
inductive FetchOutcome where
  | exn
  | ok (status : Nat) (body : JValue)

/-- Python `key in v`: key membership for a dict, element equality for a
list, substring for a string; a `TypeError` (modelled as `Except.error`)
for the other shapes. -/
def pyContains (v : JValue) (k : String) : Except Unit Bool :=
  match v with
  | JValue.obj fs => Except.ok (jlookup fs k).isSome
  | JValue.arr xs =>
    Except.ok (xs.any fun x => match x with | JValue.str s => s = k | _ => false)
  | JValue.str s => Except.ok (strContains s k)
  | _ => Except.error ()

/-- Python `v[k]` with a string key: dict access (`KeyError` when absent),
`TypeError` otherwise. -/
def pyGetKey (v : JValue) (k : String) : Except Unit JValue :=
  match v with
  | JValue.obj fs =>
    match jlookup fs k with
    | some x => Except.ok x
    | none => Except.error ()
  | _ => Except.error ()

/-- Python `for x in v`: a list yields its elements, a dict its keys, a
string its characters (as one-character strings); iterating any other
truthy value raises `TypeError`. -/
def pyIter (v : JValue) : Except Unit (List JValue) :=
  match v with
  | JValue.arr xs => Except.ok xs
  | JValue.obj fs => Except.ok (fs.map fun p => JValue.str p.1)
  | JValue.str s => Except.ok (s.data.map fun c => JValue.str (String.mk [c]))
  | _ => Except.error ()

/-- The Python idiom
`if isinstance(source_data, list) and len(source_data) > 0: source_data = source_data[0]`:
a non-empty sequence is replaced by its first element, anything else is kept
(shared by the strategy-1 scan and the spec-side definitions). -/
def seqHead : JValue → JValue
  | JValue.arr (x :: _) => x
  | v => v

/-- `return s` for a found candidate, `"Unknown"` when the scan found
nothing (the common tail of the three strategies). -/
def orUnknown : Option String → String
  | some s => s
  | none => "Unknown"

/-- `if not isinstance(entities, list): entities = [entities]`
(line 184-185 of the source). -/
def toEntities : JValue → List JValue
  | JValue.arr xs => xs
  | v => [v]

/-- The `organism_sources` priority list of `try_corrected_graphql`
(lines 147-154 of the source). -/
def organism_sources : List (String × String) :=
  [("rcsb_entity_source_organism", "ncbi_scientific_name"),
   ("rcsb_entity_source_organism", "scientific_name"),
   ("entity_src_nat", "pdbx_organism_scientific"),
   ("entity_src_gen", "pdbx_host_org_scientific_name"),
   ("rcsb_entity_host_organism", "ncbi_scientific_name"),
   ("rcsb_entity_host_organism", "scientific_name")]

/-- Strategy 1 acceptance (line 164 of the source):
`if organism and organism.strip() and not organism.lower().startswith('j '):
return organism.strip()`.  A truthy non-string raises `AttributeError` at
`.strip()`. -/
def acceptGql (organism : JValue) : Except Unit (Option String) :=
  match organism with
  | JValue.str s =>
    Except.ok
      (if s ≠ "" ∧ strip s ≠ "" ∧ pyStartsWith (pyLower s) "j " = false
       then some (strip s) else none)
  | v => if truthy v then Except.error () else Except.ok none

/-- One `(source_key, name_key)` probe of the strategy-1 inner loop
(lines 156-165 of the source). -/
def gqlCandidate (entity : JValue) (sk nk : String) : Except Unit (Option String) :=
  match pyContains entity sk with
  | Except.error u => Except.error u
  | Except.ok false => Except.ok none
  | Except.ok true =>
    match pyGetKey entity sk with
    | Except.error u => Except.error u
    | Except.ok g =>
      if truthy g then
        match seqHead g with
        | JValue.obj gfs =>
          match jlookup gfs nk with
          | some organism => acceptGql organism
          | none => Except.ok none
        | _ => Except.ok none
      else Except.ok none

/-- Strategy-1 inner loop: first accepted candidate over the priority list. -/
def scanPairs (entity : JValue) : List (String × String) → Except Unit (Option String)
  | [] => Except.ok none
  | p :: rest =>
    match gqlCandidate entity p.1 p.2 with
    | Except.error u => Except.error u
    | Except.ok (some s) => Except.ok (some s)
    | Except.ok none => scanPairs entity rest

/-- Strategy-1 outer loop over the polymer entities. -/
def scanEntities : List JValue → Except Unit (Option String)
  | [] => Except.ok none
  | e :: rest =>
    match scanPairs e organism_sources with
    | Except.error u => Except.error u
    | Except.ok (some s) => Except.ok (some s)
    | Except.ok none => scanEntities rest

/-- Body of `try_corrected_graphql` after a 200 reply (lines 135-165):
check `errors`, descend `data -> entry -> polymer_entities`, then scan. -/
def graphqlScan (body : JValue) : Except Unit (Option String) :=
  match pyContains body "errors" with
  | Except.error u => Except.error u
  | Except.ok true => Except.ok none
  | Except.ok false =>
    match pyContains body "data" with
    | Except.error u => Except.error u
    | Except.ok false => Except.ok none
    | Except.ok true =>
      match pyGetKey body "data" with
      | Except.error u => Except.error u
      | Except.ok d =>
        if truthy d then
          match pyGetKey d "entry" with
          | Except.error u => Except.error u
          | Except.ok entry =>
            if truthy entry then
              match pyGetKey entry "polymer_entities" with
              | Except.error u => Except.error u
              | Except.ok entities =>
                if truthy entities then
                  match pyIter entities with
                  | Except.error u => Except.error u
                  | Except.ok es => scanEntities es
                else Except.ok none
            else Except.ok none
        else Except.ok none

/-- `try_corrected_graphql`: any exception is caught (`return "Unknown"`),
a non-200 status or an empty scan also yields `"Unknown"`. -/
def try_corrected_graphql (o : FetchOutcome) : String :=
  match o with
  | FetchOutcome.exn => "Unknown"
  | FetchOutcome.ok code body =>
    if code = 200 then
      match graphqlScan body with
      | Except.ok (some s) => s
      | _ => "Unknown"
    else "Unknown"

/-- The journal-name denylist shared by strategies 2 and 3
(lines 202 and 230 of the source; the two occurrences are textually
identical in the source). -/
def journals : List String := ["j mol", "nature", "science", "proc natl"]

/-- `any(journal in organism.lower() for journal in [...])`. -/
def containsJournal (s : String) : Bool :=
  journals.any fun j => strContains (pyLower s) j

/-- Strategy 2/3 acceptance (lines 200-203 and 228-231 of the source):
`if organism and isinstance(organism, str) and organism.strip():` then
`if not any(journal in organism.lower() ...): return organism.strip()`.
No exception is possible here. -/
def acceptRest (o : Option JValue) : Option String :=
  match o with
  | some (JValue.str s) =>
    if s ≠ "" ∧ strip s ≠ "" ∧ containsJournal s = false then some (strip s) else none
  | _ => none

/-- The `organism_paths` list of `try_rest_entities` (lines 190-196 of the
source).  Note `entity_src_gen` comes before `entity_src_nat` here, the
opposite of the strategy-1 order. -/
def restPaths : List (List PathKey) :=
  [[PathKey.k "rcsb_entity_source_organism", PathKey.i 0, PathKey.k "ncbi_scientific_name"],
   [PathKey.k "rcsb_entity_source_organism", PathKey.i 0, PathKey.k "scientific_name"],
   [PathKey.k "entity_src_gen", PathKey.i 0, PathKey.k "pdbx_host_org_scientific_name"],
   [PathKey.k "entity_src_nat", PathKey.i 0, PathKey.k "pdbx_organism_scientific"],
   [PathKey.k "rcsb_entity_host_organism", PathKey.i 0, PathKey.k "ncbi_scientific_name"]]

/-- First accepted candidate over a list of nested paths
(the inner `for path in organism_paths` loop, also used by strategy 3). -/
def scanPaths (v : JValue) : List (List PathKey) → Option String
  | [] => none
  | p :: rest =>
    match acceptRest (get_nested_value v p) with
    | some s => some s
    | none => scanPaths v rest

/-- The `for entity in entities` loop of `try_rest_entities`
(lines 187-203): non-dict entities are skipped. -/
def scanRestEntities : List JValue → Option String
  | [] => none
  | e :: rest =>
    match e with
    | JValue.obj fs =>
      match scanPaths (JValue.obj fs) restPaths with
      | some s => some s
      | none => scanRestEntities rest
    | _ => scanRestEntities rest

/-- `try_rest_entities`: on a 200 reply the body is normalised to a list
(`if not isinstance(entities, list): entities = [entities]`) and scanned;
every other outcome yields `"Unknown"`. -/
def try_rest_entities (o : FetchOutcome) : String :=
  match o with
  | FetchOutcome.exn => "Unknown"
  | FetchOutcome.ok code body =>
    if code = 200 then
      orUnknown (scanRestEntities (toEntities body))
    else "Unknown"

/-- The `organism_paths` list of `try_entry_rest` (lines 221-224). -/
def entryPaths : List (List PathKey) :=
  [[PathKey.k "rcsb_entry_info", PathKey.k "source_organism_names", PathKey.i 0],
   [PathKey.k "rcsb_entry_info", PathKey.k "polymer_composition",
    PathKey.k "source_organism_names", PathKey.i 0]]

/-- `try_entry_rest` (lines 210-236). -/
def try_entry_rest (o : FetchOutcome) : String :=
  match o with
  | FetchOutcome.exn => "Unknown"
  | FetchOutcome.ok code body =>
    if code = 200 then
      orUnknown (scanPaths body entryPaths)
    else "Unknown"

/-- `get_organism_corrected` (lines 79-97): the three strategies in order,
short-circuiting on the first result that differs from `"Unknown"`.  The
three `FetchOutcome` arguments abstract the three network interactions. -/
def get_organism_corrected (g r e : FetchOutcome) : String :=
  if try_corrected_graphql g ≠ "Unknown" then try_corrected_graphql g
  else if try_rest_entities r ≠ "Unknown" then try_rest_entities r
  else if try_entry_rest e ≠ "Unknown" then try_entry_rest e
  else "Unknown"

/-- The flat record built by `extract_metadata` (lines 322-334).  Fields
hold raw `JValue`s exactly as the Python dict does; `organism` is the
resolver string, `keywords` and `authors` are the two derived lists. -/
structure Metadata where
  pdb_id : JValue
  protein_name : JValue
  organism : String
  resolution : JValue
  method : JValue
  release_date : JValue
  structure_title : JValue
  molecular_weight : JValue
  keywords : List String
  classification : JValue
  authors : List JValue

/-- Python `v.get(k, dflt)`: `AttributeError` (`Except.error`) when `v` is
not a dict. -/
def dictGet (v : JValue) (k : String) (dflt : JValue) : Except Unit JValue :=
  match v with
  | JValue.obj fs => Except.ok ((jlookup fs k).getD dflt)
  | _ => Except.error ()

/-- Python `v[0]`: first element of a list (`IndexError` when empty), first
character of a string, `TypeError` otherwise. -/
def pyIndex0 (v : JValue) : Except Unit JValue :=
  match v with
  | JValue.arr (x :: _) => Except.ok x
  | JValue.arr [] => Except.error ()
  | JValue.str s =>
    match s.data with
    | c :: _ => Except.ok (JValue.str (String.mk [c]))
    | [] => Except.error ()
  | _ => Except.error ()

/-- Lines 306-310: the protein-name default chain. -/
def extractProteinName (entry : JValue) : Except Unit JValue :=
  match dictGet entry "struct" (JValue.obj []) with
  | Except.error u => Except.error u
  | Except.ok s =>
    match dictGet s "title" JValue.null with
    | Except.error u => Except.error u
    | Except.ok t =>
      if truthy t then
        match pyGetKey entry "struct" with
        | Except.error u => Except.error u
        | Except.ok s2 => pyGetKey s2 "title"
      else
        match dictGet entry "rcsb_primary_citation" (JValue.obj []) with
        | Except.error u => Except.error u
        | Except.ok c =>
          match dictGet c "title" JValue.null with
          | Except.error u => Except.error u
          | Except.ok ct =>
            if truthy ct then
              match pyGetKey entry "rcsb_primary_citation" with
              | Except.error u => Except.error u
              | Except.ok c2 => pyGetKey c2 "title"
            else Except.ok (JValue.str "Unknown Protein")

/-- Lines 313-315: keyword derivation.
`keywords = [kw.strip() for kw in entry['struct_keywords']['pdbx_keywords'].split(',')]`
guarded by a truthiness check; `.split` on a truthy non-string raises. -/
def extractKeywords (entry : JValue) : Except Unit (List String) :=
  match dictGet entry "struct_keywords" (JValue.obj []) with
  | Except.error u => Except.error u
  | Except.ok sk =>
    match dictGet sk "pdbx_keywords" JValue.null with
    | Except.error u => Except.error u
    | Except.ok kv =>
      if truthy kv then
        match pyGetKey entry "struct_keywords" with
        | Except.error u => Except.error u
        | Except.ok sk2 =>
          match pyGetKey sk2 "pdbx_keywords" with
          | Except.error u => Except.error u
          | Except.ok raw =>
            match raw with
            | JValue.str s => Except.ok ((pySplitComma s).map strip)
            | _ => Except.error ()
      else Except.ok []

/-- `[author.get('name', '') for author in ...]`: each element must be a
dict, otherwise `.get` raises. -/
def authorsOf : List JValue → Except Unit (List JValue)
  | [] => Except.ok []
  | a :: rest =>
    match a with
    | JValue.obj fs =>
      match authorsOf rest with
      | Except.error u => Except.error u
      | Except.ok tl => Except.ok (((jlookup fs "name").getD (JValue.str "")) :: tl)
    | _ => Except.error ()

/-- Lines 318-320: author derivation; iterating a truthy non-list raises
before any name is produced. -/
def extractAuthors (entry : JValue) : Except Unit (List JValue) :=
  match dictGet entry "audit_author" JValue.null with
  | Except.error u => Except.error u
  | Except.ok av =>
    if truthy av then
      match pyGetKey entry "audit_author" with
      | Except.error u => Except.error u
      | Except.ok lst =>
        match lst with
        | JValue.arr xs => authorsOf xs
        | _ => Except.error ()
    else Except.ok []

/-- `entry.get('rcsb_entry_info', {}).get('resolution_combined', [None])[0]`. -/
def extractResolution (entry : JValue) : Except Unit JValue :=
  match dictGet entry "rcsb_entry_info" (JValue.obj []) with
  | Except.error u => Except.error u
  | Except.ok rei =>
    match dictGet rei "resolution_combined" (JValue.arr [JValue.null]) with
    | Except.error u => Except.error u
    | Except.ok rc => pyIndex0 rc

/-- `entry.get('exptl', [{}])[0].get('method', 'Unknown')`. -/
def extractMethod (entry : JValue) : Except Unit JValue :=
  match dictGet entry "exptl" (JValue.arr [JValue.obj []]) with
  | Except.error u => Except.error u
  | Except.ok ex =>
    match pyIndex0 ex with
    | Except.error u => Except.error u
    | Except.ok e0 => dictGet e0 "method" (JValue.str "Unknown")

/-- `entry.get('rcsb_accession_info', {}).get('initial_release_date')`. -/
def extractReleaseDate (entry : JValue) : Except Unit JValue :=
  match dictGet entry "rcsb_accession_info" (JValue.obj []) with
  | Except.error u => Except.error u
  | Except.ok rai => dictGet rai "initial_release_date" JValue.null

/-- `entry.get('struct', {}).get('title', '')`. -/
def extractStructureTitle (entry : JValue) : Except Unit JValue :=
  match dictGet entry "struct" (JValue.obj []) with
  | Except.error u => Except.error u
  | Except.ok s => dictGet s "title" (JValue.str "")

/-- `entry.get('rcsb_entry_info', {}).get('molecular_weight')`. -/
def extractMolWeight (entry : JValue) : Except Unit JValue :=
  match dictGet entry "rcsb_entry_info" (JValue.obj []) with
  | Except.error u => Except.error u
  | Except.ok rei => dictGet rei "molecular_weight" JValue.null

/-- `entry.get('struct_keywords', {}).get('pdbx_keywords', '')`. -/
def extractClassification (entry : JValue) : Except Unit JValue :=
  match dictGet entry "struct_keywords" (JValue.obj []) with
  | Except.error u => Except.error u
  | Except.ok sk => dictGet sk "pdbx_keywords" (JValue.str "")

/-- `extract_metadata` (lines 302-340): the whole body runs inside
`try ... except Exception: return None`, so any embedded exception maps to
`none`.  `entry['rcsb_id']` is the only direct (raising) access to a
required field. -/
def extract_metadata (entry : JValue) (organism : String) : Option Metadata :=
  match extractProteinName entry with
  | Except.error _ => none
  | Except.ok protein_name =>
  match extractKeywords entry with
  | Except.error _ => none
  | Except.ok keywords =>
  match extractAuthors entry with
  | Except.error _ => none
  | Except.ok authors =>
  match pyGetKey entry "rcsb_id" with
  | Except.error _ => none
  | Except.ok pdb_id =>
  match extractResolution entry with
  | Except.error _ => none
  | Except.ok resolution =>
  match extractMethod entry with
  | Except.error _ => none
  | Except.ok method =>
  match extractReleaseDate entry with
  | Except.error _ => none
  | Except.ok release_date =>
  match extractStructureTitle entry with
  | Except.error _ => none
  | Except.ok structure_title =>
  match extractMolWeight entry with
  | Except.error _ => none
  | Except.ok molecular_weight =>
  match extractClassification entry with
  | Except.error _ => none
  | Except.ok classification =>
    some ⟨pdb_id, protein_name, organism, resolution, method, release_date,
          structure_title, molecular_weight, keywords, classification, authors⟩

/-- The guard `if entry and entry.get('rcsb_id'):` of
`fetch_detailed_metadata` (line 282).  `.get` on a truthy non-dict raises
`AttributeError`, which the loop's `except` clauses do not catch. -/
def entryUsable (body : JValue) : Except Unit Bool :=
  if truthy body then
    match body with
    | JValue.obj fs => Except.ok (truthy ((jlookup fs "rcsb_id").getD JValue.null))
    | _ => Except.error ()
  else Except.ok false

/-- One iteration of the `fetch_detailed_metadata` loop (lines 261-298) for
a single identifier, given the outcome of the entry fetch and the resolved
organism.  Returns the record that is appended (if any) together with a
flag telling whether `time.sleep(0.3)` was reached: a caught transport or
decode error skips the sleep, and a non-200 status executes `continue`,
which also skips it.  `Except.error` models an uncaught exception (the
`AttributeError` of `entryUsable`). -/
def processStep (entryFetch : FetchOutcome) (organism : String) :
    Except Unit (Option Metadata × Bool) :=
  match entryFetch with
  | FetchOutcome.exn => Except.ok (none, false)
  | FetchOutcome.ok code body =>
    if code = 200 then
      match entryUsable body with
      | Except.error u => Except.error u
      | Except.ok true => Except.ok (extract_metadata body organism, true)
      | Except.ok false => Except.ok (none, true)
    else Except.ok (none, false)

/-- The identifier-accumulation loop of `main` (lines 348-364), with the
search endpoint abstracted as `pages : start → rows → identifiers` (an
error or a non-200 reply yields `[]` in `fetch_pdb_batch`, exactly like an
empty page). -/
def fetchGo (pages : Nat → Nat → List String) (target : Nat) :
    List Nat → List String → List String
  | [], acc => acc
  | s :: rest, acc =>
    let batch := pages s (min 100 (target - s))
    if batch.isEmpty then acc
    else
      let acc' := acc ++ batch
      if target ≤ acc'.length then acc'.take target
      else fetchGo pages target rest acc'

/-- `list_identifiers(target)`: iterate `for start in range(0, target, 100)`
with `rows = min(100, target - start)`, stopping early on an empty batch or
once the accumulated count reaches `target` (truncating the overshoot). -/
def list_identifiers (pages : Nat → Nat → List String) (target : Nat) : List String :=
  fetchGo pages target (List.range' 0 ((target + 99) / 100) 100) []

/-! Spec-side definitions, written from the words of the claims (used to
compare the implementation against the claimed scan descriptions). -/

/-- A value the strategy-1 acceptance test can look at without raising:
a string, or anything falsy. -/
def strOrFalsy (v : JValue) : Bool :=
  match v with
  | JValue.str _ => true
  | v => !truthy v

/-- The string content of an optional value, when it is a string. -/
def strVal : Option JValue → Option String
  | some (JValue.str s) => some s
  | _ => none

/-- A field value the strategy-1 acceptance test can inspect without
raising: absent, a string, or falsy. -/
def cleanVal : Option JValue → Bool
  | none => true
  | some o => strOrFalsy o

/-- The candidate a `(group, field)` pair contributes for one sub-unit,
per the claim: the group's value (first element if it is a sequence) is an
object and the field holds a string. -/
def specExtract (e : JValue) (sk nk : String) : Option String :=
  match e with
  | JValue.obj fs =>
    match jlookup fs sk with
    | some g =>
      match seqHead g with
      | JValue.obj gfs => strVal (jlookup gfs nk)
      | _ => none
    | none => none
  | _ => none

/-- The six-element field-priority order of claim C2 (the claim's spec-level
names `entity_source_organism`, `entity_source_nat`, `entity_source_gen`,
`entity_host_organism` denote the source's `rcsb_entity_source_organism`,
`entity_src_nat`, `entity_src_gen`, `rcsb_entity_host_organism`). -/
def spec_organism_sources : List (String × String) :=
  [("rcsb_entity_source_organism", "ncbi_scientific_name"),
   ("rcsb_entity_source_organism", "scientific_name"),
   ("entity_src_nat", "pdbx_organism_scientific"),
   ("entity_src_gen", "pdbx_host_org_scientific_name"),
   ("rcsb_entity_host_organism", "ncbi_scientific_name"),
   ("rcsb_entity_host_organism", "scientific_name")]

/-- Claim C2's acceptance: non-empty after trimming, and the candidate does
not begin with `"j "` case-insensitively. -/
def specAccept (s : String) : Bool :=
  !(strip s == "") && !(pyStartsWith (pyLower s) "j ")

/-- Claim C2's scan result: all candidates in scan order (sub-unit outer,
field priority inner), first accepted one, returned trimmed. -/
def specFirstGql (entities : List JValue) : Option String :=
  ((entities.flatMap fun e =>
      spec_organism_sources.filterMap fun p => specExtract e p.1 p.2).find?
    specAccept).map strip

/-- One sub-unit is `clean` for a `(group, field)` pair when scanning that
pair cannot raise: the sub-unit is a dict and the field's value (behind the
optional sequence) is a string or falsy. -/
def cleanPair (e : JValue) (p : String × String) : Bool :=
  match e with
  | JValue.obj fs =>
    match jlookup fs p.1 with
    | none => true
    | some g =>
      match seqHead g with
      | JValue.obj gfs => cleanVal (jlookup gfs p.2)
      | _ => true
  | _ => false

/-- A sub-unit that is clean for every pair of the priority list. -/
def cleanEntity (e : JValue) : Bool := organism_sources.all (cleanPair e)

/-- The candidate one nested path contributes in strategies 2/3, per the
claims: the path resolves to a string. -/
def restCandidate (e : JValue) (p : List PathKey) : Option String :=
  strVal (get_nested_value e p)

/-- Claim C3/C4's acceptance for strategies 2/3: non-empty after trimming
and no denylist substring. -/
def specRestAccept (s : String) : Bool := !(strip s == "") && !containsJournal s

/-- Strategy-2 path order of the amended claim C3 (the source order:
`entity_src_gen` before `entity_src_nat`). -/
def specRestPaths : List (List PathKey) :=
  [[PathKey.k "rcsb_entity_source_organism", PathKey.i 0, PathKey.k "ncbi_scientific_name"],
   [PathKey.k "rcsb_entity_source_organism", PathKey.i 0, PathKey.k "scientific_name"],
   [PathKey.k "entity_src_gen", PathKey.i 0, PathKey.k "pdbx_host_org_scientific_name"],
   [PathKey.k "entity_src_nat", PathKey.i 0, PathKey.k "pdbx_organism_scientific"],
   [PathKey.k "rcsb_entity_host_organism", PathKey.i 0, PathKey.k "ncbi_scientific_name"]]

/-- Declarative strategy-2 scan per the (amended) claim: normalise the body
to a sequence of entities, list all path candidates in order, take the
first accepted one, trimmed. -/
def specRestScan (body : JValue) : Option String :=
  (((toEntities body).flatMap fun e =>
      specRestPaths.filterMap (restCandidate e)).find? specRestAccept).map strip

/-- The path order asserted by claim C3 as stated:
`entity_source_nat` BEFORE `entity_source_gen`. -/
def claimRestPaths : List (List PathKey) :=
  [[PathKey.k "rcsb_entity_source_organism", PathKey.i 0, PathKey.k "ncbi_scientific_name"],
   [PathKey.k "rcsb_entity_source_organism", PathKey.i 0, PathKey.k "scientific_name"],
   [PathKey.k "entity_src_nat", PathKey.i 0, PathKey.k "pdbx_organism_scientific"],
   [PathKey.k "entity_src_gen", PathKey.i 0, PathKey.k "pdbx_host_org_scientific_name"],
   [PathKey.k "rcsb_entity_host_organism", PathKey.i 0, PathKey.k "ncbi_scientific_name"]]

/-- The strategy-2 scan exactly as claim C3 states it (claimed path order). -/
def claimRestScan (body : JValue) : Option String :=
  (((toEntities body).flatMap fun e =>
      claimRestPaths.filterMap (restCandidate e)).find? specRestAccept).map strip

/-- The classification value reachable from a raw entry:
`struct_keywords -> pdbx_keywords` when `struct_keywords` is a dict. -/
def classifOf (fs : List (String × JValue)) : Option JValue :=
  match jlookup fs "struct_keywords" with
  | some (JValue.obj g) => jlookup g "pdbx_keywords"
  | _ => none

/-- A resolver result that is a real name: non-empty with no leading or
trailing whitespace. -/
def Stripped (s : String) : Prop := s ≠ "" ∧ strip s = s

/-! Concrete fixtures used by witnesses and counterexamples. -/

/-- Strategy-1 body whose first accepted candidate is the string
`"Journal of Nature Studies"`. -/
def gqlBody4 : JValue :=
  JValue.obj [("data", JValue.obj [("entry", JValue.obj [("polymer_entities",
    JValue.arr [JValue.obj [("rcsb_entity_source_organism",
      JValue.arr [JValue.obj
        [("ncbi_scientific_name", JValue.str "Journal of Nature Studies")]])]])])])]

/-- Strategy-2 body whose only candidate is `"Journal of Nature Studies"`. -/
def restBody4 : JValue :=
  JValue.arr [JValue.obj [("rcsb_entity_source_organism",
    JValue.arr [JValue.obj
      [("ncbi_scientific_name", JValue.str "Journal of Nature Studies")]])]]

/-- Strategy-3 body whose only candidate is `"Journal of Nature Studies"`. -/
def entryBody4 : JValue :=
  JValue.obj [("rcsb_entry_info", JValue.obj [("source_organism_names",
    JValue.arr [JValue.str "Journal of Nature Studies"])])]

/-- Strategy-2 body with an `entity_src_nat` organism and an
`entity_src_gen` host organism on the same entity. -/
def bodyC3 : JValue :=
  JValue.arr [JValue.obj
    [("entity_src_gen", JValue.arr [JValue.obj
        [("pdbx_host_org_scientific_name", JValue.str "Cricetulus griseus")]]),
     ("entity_src_nat", JValue.arr [JValue.obj
        [("pdbx_organism_scientific", JValue.str "Homo sapiens")]])]]

/-- Strategy-1 body whose first accepted candidate is exactly `"Unknown"`. -/
def body10 : JValue :=
  JValue.obj [("data", JValue.obj [("entry", JValue.obj [("polymer_entities",
    JValue.arr [JValue.obj [("rcsb_entity_source_organism",
      JValue.arr [JValue.obj [("ncbi_scientific_name", JValue.str "Unknown")]])]])])])]

/-- Strategy-2 body resolving to `"Escherichia coli"`. -/
def restBodyEC : JValue :=
  JValue.arr [JValue.obj [("rcsb_entity_source_organism",
    JValue.arr [JValue.obj [("ncbi_scientific_name", JValue.str "Escherichia coli")]])]]

/-- A polymer-entity list for the C2 witness: the first entity only has a
rejected (journal-prefixed) candidate, the second a real name. -/
def esC2 : List JValue :=
  [JValue.obj [("rcsb_entity_source_organism",
     JValue.arr [JValue.obj [("ncbi_scientific_name", JValue.str "J Mol Biol")]])],
   JValue.obj [("entity_src_nat",
     JValue.arr [JValue.obj [("pdbx_organism_scientific", JValue.str " Homo sapiens ")]])]]

/-- Raw-entry fields with a classification string to split. -/
def fsKW : List (String × JValue) :=
  [("rcsb_id", JValue.str "1ABC"),
   ("struct_keywords", JValue.obj
     [("pdbx_keywords", JValue.str "HYDROLASE, ENZYME , TEST")])]

/-- The record `extract_metadata` produces from `fsKW`. -/
def recKW : Metadata :=
  ⟨JValue.str "1ABC", JValue.str "Unknown Protein", "x", JValue.null,
   JValue.str "Unknown", JValue.null, JValue.str "", JValue.null,
   ["HYDROLASE", "ENZYME", "TEST"], JValue.str "HYDROLASE, ENZYME , TEST", []⟩

end Pdb

/-! # Theorems -/

namespace Pdb

/-- The head surviving a `dropWhile` fails the predicate. -/
theorem dropWhile_head_false {p : Char → Bool} :
    ∀ (l : List Char) {a : Char} {t : List Char}, l.dropWhile p = a :: t → p a = false := by
  intro l
  induction l with
  | nil => intro a t h; exact absurd h (by simp)
  | cons x xs ih =>
    intro a t h
    by_cases hx : p x = true
    · rw [List.dropWhile_cons, if_pos hx] at h
      exact ih h
    · rw [List.dropWhile_cons, if_neg hx] at h
      cases h
      simpa using hx

/-- `dropWhile` then `rdropWhile` is idempotent: stripping a stripped
character list changes nothing. -/
theorem stripChars_idem (l : List Char) : stripChars (stripChars l) = stripChars l := by
  unfold stripChars
  obtain ⟨t, ht⟩ := List.rdropWhile_prefix Char.isWhitespace (l.dropWhile Char.isWhitespace)
  have hself : (List.rdropWhile Char.isWhitespace
      (l.dropWhile Char.isWhitespace)).dropWhile Char.isWhitespace
      = List.rdropWhile Char.isWhitespace (l.dropWhile Char.isWhitespace) := by
    cases hr : List.rdropWhile Char.isWhitespace (l.dropWhile Char.isWhitespace) with
    | nil => rfl
    | cons a r' =>
      have hm : l.dropWhile Char.isWhitespace = a :: (r' ++ t) := by
        rw [← ht, hr]; rfl
      have hpa : Char.isWhitespace a = false := dropWhile_head_false l hm
      rw [List.dropWhile_cons, hpa]
      simp
  rw [hself, List.rdropWhile_idempotent]

/-- `strip` is idempotent. -/
theorem strip_strip (s : String) : strip (strip s) = strip s :=
  congrArg String.mk (stripChars_idem s.data)

/-- A non-empty stripped string is a real name in the sense of `Stripped`. -/
theorem stripped_of_strip_ne {s : String} (h : strip s ≠ "") : Stripped (strip s) :=
  ⟨h, strip_strip s⟩

/-- Unfolding `acceptGql` on a string candidate. -/
theorem acceptGql_str (t : String) :
    acceptGql (JValue.str t) =
      Except.ok
        (if t ≠ "" ∧ strip t ≠ "" ∧ pyStartsWith (pyLower t) "j " = false
         then some (strip t) else none) := rfl

/-- A candidate accepted by the strategy-1 test is trimmed and non-empty. -/
theorem acceptGql_some {o : JValue} {s : String}
    (h : acceptGql o = Except.ok (some s)) : Stripped s := by
  cases o with
  | str t =>
    rw [acceptGql_str] at h
    split at h
    · rename_i hc
      injection h with h1
      injection h1 with h2
      exact h2 ▸ stripped_of_strip_ne hc.2.1
    · exact absurd h (by simp)
  | null =>
    have : acceptGql JValue.null =
        if truthy JValue.null = true then Except.error () else Except.ok none := rfl
    rw [this] at h; split at h <;> simp_all
  | bool b =>
    have : acceptGql (JValue.bool b) =
        if truthy (JValue.bool b) = true then Except.error () else Except.ok none := rfl
    rw [this] at h; split at h <;> simp_all
  | num n =>
    have : acceptGql (JValue.num n) =
        if truthy (JValue.num n) = true then Except.error () else Except.ok none := rfl
    rw [this] at h; split at h <;> simp_all
  | arr xs =>
    have : acceptGql (JValue.arr xs) =
        if truthy (JValue.arr xs) = true then Except.error () else Except.ok none := rfl
    rw [this] at h; split at h <;> simp_all
  | obj fs =>
    have : acceptGql (JValue.obj fs) =
        if truthy (JValue.obj fs) = true then Except.error () else Except.ok none := rfl
    rw [this] at h; split at h <;> simp_all

/-- A candidate produced by one strategy-1 probe is trimmed and non-empty. -/
theorem gqlCandidate_some {e : JValue} {sk nk s : String}
    (h : gqlCandidate e sk nk = Except.ok (some s)) : Stripped s := by
  unfold gqlCandidate at h
  repeat' split at h
  all_goals first
    | exact acceptGql_some h
    | simp_all

/-- The strategy-1 inner loop only returns trimmed non-empty candidates. -/
theorem scanPairs_some {e : JValue} {s : String} :
    ∀ ps, scanPairs e ps = Except.ok (some s) → Stripped s := by
  intro ps
  induction ps with
  | nil => intro h; exact absurd h (by simp [scanPairs])
  | cons p rest ih =>
    intro h
    unfold scanPairs at h
    cases hg : gqlCandidate e p.1 p.2 with
    | error u => rw [hg] at h; exact Except.noConfusion h
    | ok val =>
      rw [hg] at h
      cases val with
      | some t =>
        injection h with h1
        injection h1 with h2
        exact h2 ▸ gqlCandidate_some hg
      | none => exact ih h

/-- The strategy-1 outer loop only returns trimmed non-empty candidates. -/
theorem scanEntities_some {s : String} :
    ∀ es, scanEntities es = Except.ok (some s) → Stripped s := by
  intro es
  induction es with
  | nil => intro h; exact absurd h (by simp [scanEntities])
  | cons e rest ih =>
    intro h
    unfold scanEntities at h
    cases hg : scanPairs e organism_sources with
    | error u => rw [hg] at h; exact Except.noConfusion h
    | ok val =>
      rw [hg] at h
      cases val with
      | some t =>
        injection h with h1
        injection h1 with h2
        exact h2 ▸ scanPairs_some _ hg
      | none => exact ih h

/-- The whole strategy-1 scan only returns trimmed non-empty candidates. -/
theorem graphqlScan_some {body : JValue} {s : String}
    (h : graphqlScan body = Except.ok (some s)) : Stripped s := by
  unfold graphqlScan at h
  repeat' split at h
  all_goals first
    | exact scanEntities_some _ h
    | simp_all

/-- Unfolding strategy 1 on a received reply. -/
theorem try_corrected_graphql_ok (code : Nat) (body : JValue) :
    try_corrected_graphql (FetchOutcome.ok code body) =
      if code = 200 then
        match graphqlScan body with
        | Except.ok (some s) => s
        | _ => "Unknown"
      else "Unknown" := rfl

/-- Strategy 1 returns `"Unknown"` or a trimmed non-empty name. -/
theorem try_corrected_graphql_shape (o : FetchOutcome) :
    try_corrected_graphql o = "Unknown" ∨ Stripped (try_corrected_graphql o) := by
  cases o with
  | exn => exact Or.inl rfl
  | ok code body =>
    rw [try_corrected_graphql_ok]
    by_cases hc : code = 200
    · rw [if_pos hc]
      cases hg : graphqlScan body with
      | error u => exact Or.inl rfl
      | ok val =>
        cases val with
        | some t => exact Or.inr (graphqlScan_some hg)
        | none => exact Or.inl rfl
    · rw [if_neg hc]; exact Or.inl rfl

/-- A candidate accepted by the strategy-2/3 test is trimmed and non-empty. -/
theorem acceptRest_some {o : Option JValue} {s : String}
    (h : acceptRest o = some s) : Stripped s := by
  unfold acceptRest at h
  split at h
  · split at h
    · rename_i hc
      injection h with h1
      exact h1 ▸ stripped_of_strip_ne hc.2.1
    · exact absurd h (by simp)
  · exact absurd h (by simp)

/-- The path loop of strategies 2/3 only returns trimmed names. -/
theorem scanPaths_some {v : JValue} {s : String} :
    ∀ ps, scanPaths v ps = some s → Stripped s := by
  intro ps
  induction ps with
  | nil => intro h; exact absurd h (by simp [scanPaths])
  | cons p rest ih =>
    intro h
    unfold scanPaths at h
    cases hg : acceptRest (get_nested_value v p) with
    | some t =>
      rw [hg] at h
      injection h with h1
      exact h1 ▸ acceptRest_some hg
    | none => rw [hg] at h; exact ih h

/-- Unfolding the strategy-2 entity loop on a dict entity. -/
theorem scanRestEntities_cons_obj (fs : List (String × JValue)) (rest : List JValue) :
    scanRestEntities (JValue.obj fs :: rest) =
      match scanPaths (JValue.obj fs) restPaths with
      | some t => some t
      | none => scanRestEntities rest := rfl

/-- The strategy-2 entity loop only returns trimmed names. -/
theorem scanRestEntities_some {s : String} :
    ∀ es, scanRestEntities es = some s → Stripped s := by
  intro es
  induction es with
  | nil => intro h; exact absurd h (by simp [scanRestEntities])
  | cons e rest ih =>
    intro h
    cases e with
    | obj fs =>
      rw [scanRestEntities_cons_obj] at h
      cases hg : scanPaths (JValue.obj fs) restPaths with
      | some t =>
        rw [hg] at h
        injection h with h1
        exact h1 ▸ scanPaths_some _ hg
      | none => rw [hg] at h; exact ih h
    | null => exact ih h
    | bool b => exact ih h
    | num n => exact ih h
    | str t => exact ih h
    | arr xs => exact ih h

/-- Unfolding strategy 2 on a received reply. -/
theorem try_rest_entities_ok (code : Nat) (body : JValue) :
    try_rest_entities (FetchOutcome.ok code body) =
      if code = 200 then
        orUnknown (scanRestEntities (toEntities body))
      else "Unknown" := rfl

/-- Strategy 2 returns `"Unknown"` or a trimmed non-empty name. -/
theorem try_rest_entities_shape (o : FetchOutcome) :
    try_rest_entities o = "Unknown" ∨ Stripped (try_rest_entities o) := by
  cases o with
  | exn => exact Or.inl rfl
  | ok code body =>
    rw [try_rest_entities_ok]
    by_cases hc : code = 200
    · rw [if_pos hc]
      cases hg : scanRestEntities (toEntities body) with
      | some t => exact Or.inr (scanRestEntities_some _ hg)
      | none => exact Or.inl rfl
    · rw [if_neg hc]; exact Or.inl rfl

/-- Unfolding strategy 3 on a received reply. -/
theorem try_entry_rest_ok (code : Nat) (body : JValue) :
    try_entry_rest (FetchOutcome.ok code body) =
      if code = 200 then
        orUnknown (scanPaths body entryPaths)
      else "Unknown" := rfl

/-- Strategy 3 returns `"Unknown"` or a trimmed non-empty name. -/
theorem try_entry_rest_shape (o : FetchOutcome) :
    try_entry_rest o = "Unknown" ∨ Stripped (try_entry_rest o) := by
  cases o with
  | exn => exact Or.inl rfl
  | ok code body =>
    rw [try_entry_rest_ok]
    by_cases hc : code = 200
    · rw [if_pos hc]
      cases hg : scanPaths body entryPaths with
      | some t => exact Or.inr (scanPaths_some _ hg)
      | none => exact Or.inl rfl
    · rw [if_neg hc]; exact Or.inl rfl

/-- The resolver returns `"Unknown"` or a trimmed non-empty name. -/
theorem get_organism_corrected_shape (g r e : FetchOutcome) :
    get_organism_corrected g r e = "Unknown" ∨
      Stripped (get_organism_corrected g r e) := by
  unfold get_organism_corrected
  by_cases h1 : try_corrected_graphql g = "Unknown"
  · rw [if_neg (by simp [h1])]
    by_cases h2 : try_rest_entities r = "Unknown"
    · rw [if_neg (by simp [h2])]
      by_cases h3 : try_entry_rest e = "Unknown"
      · rw [if_neg (by simp [h3])]
        exact Or.inl rfl
      · rw [if_pos h3]
        rcases try_entry_rest_shape e with h | h
        · exact absurd h h3
        · exact Or.inr h
    · rw [if_pos h2]
      rcases try_rest_entities_shape r with h | h
      · exact absurd h h2
      · exact Or.inr h
  · rw [if_pos h1]
    rcases try_corrected_graphql_shape g with h | h
    · exact absurd h h1
    · exact Or.inr h

/-- C1: the resolver never raises (strategy errors are caught locally and
fall through to the next strategy) and always returns either the sentinel
`"Unknown"` or a non-empty name with no leading or trailing whitespace:
conjunct 1 is the shape of the result; conjuncts 2-4 show a strategy whose
`try` block raises yields `"Unknown"`; conjuncts 5-6 show that when a
strategy yields `"Unknown"` (in particular after a caught error) the chain
continues with the remaining strategies. -/
theorem C1_resolver_contract (g r e : FetchOutcome) :
    (get_organism_corrected g r e = "Unknown" ∨
      Stripped (get_organism_corrected g r e))
    ∧ try_corrected_graphql FetchOutcome.exn = "Unknown"
    ∧ try_rest_entities FetchOutcome.exn = "Unknown"
    ∧ try_entry_rest FetchOutcome.exn = "Unknown"
    ∧ (try_corrected_graphql g = "Unknown" →
        get_organism_corrected g r e =
          (if try_rest_entities r ≠ "Unknown" then try_rest_entities r
           else if try_entry_rest e ≠ "Unknown" then try_entry_rest e
           else "Unknown"))
    ∧ (try_corrected_graphql g = "Unknown" → try_rest_entities r = "Unknown" →
        get_organism_corrected g r e =
          (if try_entry_rest e ≠ "Unknown" then try_entry_rest e
           else "Unknown")) := by
  refine ⟨get_organism_corrected_shape g r e, rfl, rfl, rfl, ?_, ?_⟩
  · intro h1
    unfold get_organism_corrected
    rw [if_neg (by simp [h1])]
  · intro h1 h2
    unfold get_organism_corrected
    rw [if_neg (by simp [h1]), if_neg (by simp [h2])]

/-- Witness for C1: with an erroring strategy-1 interaction the resolver
falls through and returns strategy 2's name. -/
theorem C1_resolver_contract_witness :
    try_corrected_graphql FetchOutcome.exn = "Unknown" ∧
    get_organism_corrected FetchOutcome.exn (FetchOutcome.ok 200 restBodyEC)
      FetchOutcome.exn = "Escherichia coli" := by
  constructor
  · rfl
  · have h := (C1_resolver_contract FetchOutcome.exn
      (FetchOutcome.ok 200 restBodyEC) FetchOutcome.exn).2.2.2.2.1 rfl
    rw [h]
    rfl

/-- C10: the sentinel is in-band.  `body10`'s first accepted strategy-1
candidate is exactly the string `"Unknown"`, the strategy therefore returns
`"Unknown"`, and the resolver cannot distinguish this from failure: it
continues with strategies 2 and 3 instead of returning the candidate. -/
theorem C10_inband_sentinel :
    graphqlScan body10 = Except.ok (some "Unknown")
    ∧ try_corrected_graphql (FetchOutcome.ok 200 body10) = "Unknown"
    ∧ ∀ r e, get_organism_corrected (FetchOutcome.ok 200 body10) r e =
        (if try_rest_entities r ≠ "Unknown" then try_rest_entities r
         else if try_entry_rest e ≠ "Unknown" then try_entry_rest e
         else "Unknown") := by
  refine ⟨rfl, rfl, ?_⟩
  intro r e
  unfold get_organism_corrected
  rw [if_neg (by simp [show try_corrected_graphql (FetchOutcome.ok 200 body10)
    = "Unknown" from rfl])]

/-- C4: the two denylists are asymmetric.  `"Journal of Nature Studies"`
passes strategy 1's prefix-only check (it does not start with `"j "`) but
fails strategy 2/3's substring check (it contains `"nature"`), both at the
acceptance level and end to end. -/
theorem C4_denylist_asymmetry :
    acceptGql (JValue.str "Journal of Nature Studies")
        = Except.ok (some "Journal of Nature Studies")
    ∧ acceptRest (some (JValue.str "Journal of Nature Studies")) = none
    ∧ try_corrected_graphql (FetchOutcome.ok 200 gqlBody4)
        = "Journal of Nature Studies"
    ∧ try_rest_entities (FetchOutcome.ok 200 restBody4) = "Unknown"
    ∧ try_entry_rest (FetchOutcome.ok 200 entryBody4) = "Unknown" := by
  exact ⟨rfl, rfl, rfl, rfl, rfl⟩

/-- The code's strategy-1 acceptance condition is the claim's `specAccept`. -/
theorem accept_cond_iff (t : String) :
    (t ≠ "" ∧ strip t ≠ "" ∧ pyStartsWith (pyLower t) "j " = false) ↔
      specAccept t = true := by
  unfold specAccept
  constructor
  · rintro ⟨h1, h2, h3⟩
    simp [h2, h3]
  · intro h
    rw [Bool.and_eq_true] at h
    obtain ⟨ha, hb⟩ := h
    have h2 : strip t ≠ "" := by simpa using ha
    have h3 : pyStartsWith (pyLower t) "j " = false := by simpa using hb
    refine ⟨?_, h2, h3⟩
    intro he
    exact h2 (by rw [he]; rfl)

/-- The strategy-1 acceptance test, on a value it can inspect without
raising, agrees with the claim's accept-and-trim step. -/
theorem acceptGql_eq_strVal {o : JValue} (hs : strOrFalsy o = true) :
    acceptGql o =
      Except.ok ((strVal (some o)).bind fun s =>
        if specAccept s then some (strip s) else none) := by
  cases o with
  | str t =>
    rw [acceptGql_str]
    show Except.ok _ = Except.ok
      (if specAccept t = true then some (strip t) else none)
    congr 1
    by_cases hsa : specAccept t = true
    · rw [if_pos ((accept_cond_iff t).mpr hsa), if_pos hsa]
    · rw [if_neg (fun hcc => hsa ((accept_cond_iff t).mp hcc)), if_neg hsa]
  | null => rfl
  | bool b =>
    have ht : truthy (JValue.bool b) = false := by simpa [strOrFalsy] using hs
    have he : acceptGql (JValue.bool b) =
        if truthy (JValue.bool b) = true then Except.error () else Except.ok none := rfl
    rw [he, ht]
    rfl
  | num n =>
    have ht : truthy (JValue.num n) = false := by simpa [strOrFalsy] using hs
    have he : acceptGql (JValue.num n) =
        if truthy (JValue.num n) = true then Except.error () else Except.ok none := rfl
    rw [he, ht]
    rfl
  | arr xs =>
    have ht : truthy (JValue.arr xs) = false := by simpa [strOrFalsy] using hs
    have he : acceptGql (JValue.arr xs) =
        if truthy (JValue.arr xs) = true then Except.error () else Except.ok none := rfl
    rw [he, ht]
    rfl
  | obj gfs =>
    have ht : truthy (JValue.obj gfs) = false := by simpa [strOrFalsy] using hs
    have he : acceptGql (JValue.obj gfs) =
        if truthy (JValue.obj gfs) = true then Except.error () else Except.ok none := rfl
    rw [he, ht]
    rfl

/-- On a clean sub-unit, one strategy-1 probe computes exactly the claim's
extract-then-accept step for that `(group, field)` pair. -/
theorem gqlCandidate_eq_spec {e : JValue} {sk nk : String}
    (hc : cleanPair e (sk, nk) = true) :
    gqlCandidate e sk nk =
      Except.ok ((specExtract e sk nk).bind fun s =>
        if specAccept s then some (strip s) else none) := by
  cases e with
  | null => exact Bool.noConfusion hc
  | bool b => exact Bool.noConfusion hc
  | num n => exact Bool.noConfusion hc
  | str t => exact Bool.noConfusion hc
  | arr xs => exact Bool.noConfusion hc
  | obj fs =>
    have hpc : pyContains (JValue.obj fs) sk = Except.ok (jlookup fs sk).isSome := rfl
    have hspec : specExtract (JValue.obj fs) sk nk =
        (match jlookup fs sk with
         | some g =>
           match seqHead g with
           | JValue.obj gfs => strVal (jlookup gfs nk)
           | _ => none
         | none => none) := rfl
    cases hj : jlookup fs sk with
    | none =>
      unfold gqlCandidate
      rw [hpc, hspec, hj]
      rfl
    | some g =>
      have hpg : pyGetKey (JValue.obj fs) sk = Except.ok g := by
        simp only [pyGetKey, hj]
      have hcv2 : (match seqHead g with
          | JValue.obj gfs => cleanVal (jlookup gfs nk)
          | _ => true) = true := by
        have h0 : cleanPair (JValue.obj fs) (sk, nk) =
            (match jlookup fs sk with
             | none => true
             | some g =>
               match seqHead g with
               | JValue.obj gfs => cleanVal (jlookup gfs nk)
               | _ => true) := rfl
        rw [h0, hj] at hc
        exact hc
      unfold gqlCandidate
      rw [hpc, hspec, hj, hpg]
      cases g with
      | null => rfl
      | bool b =>
        show (if truthy (JValue.bool b) = true
            then Except.ok none else (Except.ok none : Except Unit (Option String)))
          = Except.ok none
        rw [ite_self]
      | num n =>
        show (if truthy (JValue.num n) = true
            then Except.ok none else (Except.ok none : Except Unit (Option String)))
          = Except.ok none
        rw [ite_self]
      | str t =>
        show (if truthy (JValue.str t) = true
            then Except.ok none else (Except.ok none : Except Unit (Option String)))
          = Except.ok none
        rw [ite_self]
      | obj gfs =>
        have hcv3 : cleanVal (jlookup gfs nk) = true := hcv2
        cases gfs with
        | nil => rfl
        | cons f rest2 =>
          show (match jlookup (f :: rest2) nk with
              | some organism => acceptGql organism
              | none => Except.ok none)
            = Except.ok ((strVal (jlookup (f :: rest2) nk)).bind fun s =>
                if specAccept s then some (strip s) else none)
          cases ho : jlookup (f :: rest2) nk with
          | none => rfl
          | some o =>
            have hs : strOrFalsy o = true := by
              have h4 : cleanVal (jlookup (f :: rest2) nk) = true := hcv3
              rw [ho] at h4
              exact h4
            exact acceptGql_eq_strVal hs
      | arr xs =>
        cases xs with
        | nil => rfl
        | cons x rest2 =>
          cases x with
          | null => rfl
          | bool b => rfl
          | num n => rfl
          | str t => rfl
          | arr ys => rfl
          | obj gfs =>
            have hcv3 : cleanVal (jlookup gfs nk) = true := hcv2
            show (match jlookup gfs nk with
                | some organism => acceptGql organism
                | none => Except.ok none)
              = Except.ok ((strVal (jlookup gfs nk)).bind fun s =>
                  if specAccept s then some (strip s) else none)
            cases ho : jlookup gfs nk with
            | none => rfl
            | some o =>
              have hs : strOrFalsy o = true := by
                have h4 : cleanVal (jlookup gfs nk) = true := hcv3
                rw [ho] at h4
                exact h4
              exact acceptGql_eq_strVal hs

/-- On a clean sub-unit the strategy-1 inner loop returns the first
accepted candidate of the pair list, trimmed (claim C2's inner scan). -/
theorem scanPairs_eq_spec {e : JValue} :
    ∀ ps, (∀ p ∈ ps, cleanPair e p = true) →
      scanPairs e ps =
        Except.ok (((ps.filterMap fun p => specExtract e p.1 p.2).find?
          specAccept).map strip) := by
  intro ps
  induction ps with
  | nil => intro _; rfl
  | cons p rest ih =>
    intro hall
    have hp : cleanPair e p = true := hall p (List.mem_cons_self p rest)
    have hrest : ∀ q ∈ rest, cleanPair e q = true :=
      fun q hq => hall q (List.mem_cons_of_mem p hq)
    have hpp : cleanPair e (p.1, p.2) = true := hp
    unfold scanPairs
    rw [gqlCandidate_eq_spec hpp]
    simp only [List.filterMap_cons]
    cases hx : specExtract e p.1 p.2 with
    | none => exact ih hrest
    | some t =>
      by_cases ha : specAccept t = true
      · have hb : (Option.bind (some t) fun s =>
            if specAccept s then some (strip s) else none) = some (strip t) := by
          rw [Option.some_bind, if_pos ha]
        rw [hb]
        show (Except.ok (some (strip t)) : Except Unit (Option String)) =
          Except.ok (((t :: rest.filterMap fun p => specExtract e p.1 p.2).find?
            specAccept).map strip)
        rw [List.find?_cons_of_pos _ ha]
        rfl
      · have hb : (Option.bind (some t) fun s =>
            if specAccept s then some (strip s) else none) = none := by
          rw [Option.some_bind, if_neg ha]
        rw [hb]
        show scanPairs e rest =
          Except.ok (((t :: rest.filterMap fun p => specExtract e p.1 p.2).find?
            specAccept).map strip)
        rw [List.find?_cons_of_neg _ ha]
        exact ih hrest

/-- On clean sub-units the whole strategy-1 scan returns the claim's first
accepted candidate over sub-unit order outer, field priority inner. -/
theorem scanEntities_eq_spec :
    ∀ es, (∀ e ∈ es, cleanEntity e = true) →
      scanEntities es = Except.ok (specFirstGql es) := by
  intro es
  induction es with
  | nil => intro _; rfl
  | cons e rest ih =>
    intro hall
    have he : cleanEntity e = true := hall e (List.mem_cons_self e rest)
    have hrest : ∀ x ∈ rest, cleanEntity x = true :=
      fun x hx => hall x (List.mem_cons_of_mem e hx)
    have hpairs : ∀ p ∈ organism_sources, cleanPair e p = true := by
      unfold cleanEntity at he
      exact List.all_eq_true.mp he
    unfold scanEntities
    rw [scanPairs_eq_spec organism_sources hpairs]
    unfold specFirstGql
    simp only [List.flatMap_cons]
    rw [List.find?_append, show spec_organism_sources = organism_sources from rfl]
    cases hf : (organism_sources.filterMap fun p => specExtract e p.1 p.2).find?
        specAccept with
    | some t => rfl
    | none => exact ih hrest

/-- C2: in strategy 1 the scan runs sub-unit order outer and the fixed
six-element field-priority order inner (first conjunct: the code's priority
list is exactly the claim's); a sequence-valued group is inspected only at
its first element, a candidate is accepted exactly when it is a non-empty
string after trimming that does not begin with `"j "` case-insensitively,
and the first accepted candidate is returned (trimmed) immediately — stated
for sub-unit lists on which the Python scan raises no exception. -/
theorem C2_strategy1_scan :
    organism_sources = spec_organism_sources ∧
    ∀ es : List JValue, (∀ e ∈ es, cleanEntity e = true) →
      scanEntities es = Except.ok (specFirstGql es) :=
  ⟨rfl, scanEntities_eq_spec⟩

/-- Witness for C2 at a concrete two-entity response: the journal-prefixed
candidate of the first sub-unit is rejected and the second sub-unit's
(untrimmed) name is returned trimmed. -/
theorem C2_strategy1_scan_witness :
    scanEntities esC2 = Except.ok (specFirstGql esC2) ∧
    specFirstGql esC2 = some "Homo sapiens" :=
  ⟨C2_strategy1_scan.2 esC2 (by decide), rfl⟩

/-- The code's strategy-2/3 acceptance condition is the claims'
`specRestAccept`. -/
theorem restAccept_cond_iff (t : String) :
    (t ≠ "" ∧ strip t ≠ "" ∧ containsJournal t = false) ↔
      specRestAccept t = true := by
  unfold specRestAccept
  constructor
  · rintro ⟨h1, h2, h3⟩
    simp [h2, h3]
  · intro h
    rw [Bool.and_eq_true] at h
    obtain ⟨ha, hb⟩ := h
    have h2 : strip t ≠ "" := by simpa using ha
    have h3 : containsJournal t = false := by simpa using hb
    refine ⟨?_, h2, h3⟩
    intro he
    exact h2 (by rw [he]; rfl)

/-- The strategy-2/3 path loop returns the first accepted candidate of the
path list, trimmed. -/
theorem scanPaths_eq_spec (v : JValue) :
    ∀ ps, scanPaths v ps =
      ((ps.filterMap (restCandidate v)).find? specRestAccept).map strip := by
  intro ps
  induction ps with
  | nil => rfl
  | cons p rest ih =>
    unfold scanPaths
    simp only [List.filterMap_cons, restCandidate]
    cases hg : get_nested_value v p with
    | none => exact ih
    | some o =>
      cases o with
      | null => exact ih
      | bool b => exact ih
      | num n => exact ih
      | arr xs => exact ih
      | obj gfs => exact ih
      | str t =>
        by_cases ha : specRestAccept t = true
        · have hacc : acceptRest (some (JValue.str t)) = some (strip t) := by
            show (if t ≠ "" ∧ strip t ≠ "" ∧ containsJournal t = false
                then some (strip t) else none) = some (strip t)
            rw [if_pos ((restAccept_cond_iff t).mpr ha)]
          rw [hacc]
          show (some (strip t) : Option String) =
            ((t :: rest.filterMap (restCandidate v)).find? specRestAccept).map strip
          rw [List.find?_cons_of_pos _ ha]
          rfl
        · have hacc : acceptRest (some (JValue.str t)) = none := by
            show (if t ≠ "" ∧ strip t ≠ "" ∧ containsJournal t = false
                then some (strip t) else none) = none
            rw [if_neg (fun hcc => ha ((restAccept_cond_iff t).mp hcc))]
          rw [hacc]
          show scanPaths v rest =
            ((t :: rest.filterMap (restCandidate v)).find? specRestAccept).map strip
          rw [List.find?_cons_of_neg _ ha]
          exact ih

/-- A non-dict entity contributes no strategy-2 path candidate. -/
theorem restCandidates_null :
    specRestPaths.filterMap (restCandidate JValue.null) = [] := rfl

/-- A non-dict entity contributes no strategy-2 path candidate. -/
theorem restCandidates_bool (b : Bool) :
    specRestPaths.filterMap (restCandidate (JValue.bool b)) = [] := rfl

/-- A non-dict entity contributes no strategy-2 path candidate. -/
theorem restCandidates_num (n : Int) :
    specRestPaths.filterMap (restCandidate (JValue.num n)) = [] := rfl

/-- A non-dict entity contributes no strategy-2 path candidate. -/
theorem restCandidates_str (s : String) :
    specRestPaths.filterMap (restCandidate (JValue.str s)) = [] := rfl

/-- A non-dict entity contributes no strategy-2 path candidate. -/
theorem restCandidates_arr (xs : List JValue) :
    specRestPaths.filterMap (restCandidate (JValue.arr xs)) = [] := rfl

/-- The strategy-2 entity loop equals the declarative first-accepted scan
over entities-outer, paths-inner candidate order (in the source's path
order). -/
theorem scanRestEntities_eq_spec :
    ∀ es, scanRestEntities es =
      ((es.flatMap fun e => specRestPaths.filterMap (restCandidate e)).find?
        specRestAccept).map strip := by
  intro es
  induction es with
  | nil => rfl
  | cons e rest ih =>
    cases e with
    | obj fs =>
      rw [scanRestEntities_cons_obj, scanPaths_eq_spec (JValue.obj fs) restPaths]
      simp only [List.flatMap_cons]
      rw [List.find?_append, show restPaths = specRestPaths from rfl]
      cases hf : (specRestPaths.filterMap (restCandidate (JValue.obj fs))).find?
          specRestAccept with
      | some t => rfl
      | none => exact ih
    | null =>
      simp only [List.flatMap_cons, restCandidates_null, List.nil_append]
      exact ih
    | bool b =>
      simp only [List.flatMap_cons, restCandidates_bool, List.nil_append]
      exact ih
    | num n =>
      simp only [List.flatMap_cons, restCandidates_num, List.nil_append]
      exact ih
    | str s =>
      simp only [List.flatMap_cons, restCandidates_str, List.nil_append]
      exact ih
    | arr xs =>
      simp only [List.flatMap_cons, restCandidates_arr, List.nil_append]
      exact ih

/-- C3 as stated is false: the code probes `entity_src_gen` before
`entity_src_nat`, while the claim orders `entity_source_nat` before
`entity_source_gen`.  On an entity carrying both fields the code returns
the `entity_src_gen` host organism, whereas a scan in the claim's order
returns the `entity_src_nat` organism. -/
theorem C3_claim_order_counterexample :
    try_rest_entities (FetchOutcome.ok 200 bodyC3) = "Cricetulus griseus"
    ∧ claimRestScan bodyC3 = some "Homo sapiens"
    ∧ specRestScan bodyC3 = some "Cricetulus griseus" := ⟨rfl, rfl, rfl⟩

/-- C3 amended: strategy 2 probes, per entity, the five nested paths in the
source's order (`entity_source_organism.ncbi_scientific_name`,
`entity_source_organism.scientific_name`, then `entity_src_gen`, then
`entity_src_nat`, then `entity_host_organism.ncbi_scientific_name`), taking
the first element of each organism-group sequence, and returns the first
accepted candidate, trimmed, over entities-outer, paths-inner order. -/
theorem C3_rest_paths_amended :
    restPaths = specRestPaths ∧
    ∀ body : JValue,
      try_rest_entities (FetchOutcome.ok 200 body) =
        (specRestScan body).getD "Unknown" := by
  refine ⟨rfl, ?_⟩
  intro body
  rw [try_rest_entities_ok, if_pos rfl, scanRestEntities_eq_spec]
  unfold specRestScan
  cases hw : ((toEntities body).flatMap fun e =>
      specRestPaths.filterMap (restCandidate e)).find? specRestAccept with
  | some t => rfl
  | none => rfl

/-- Unfolding one orchestrator step on a received entry reply. -/
theorem processStep_ok (code : Nat) (body : JValue) (org : String) :
    processStep (FetchOutcome.ok code body) org =
      if code = 200 then
        match entryUsable body with
        | Except.error u => Except.error u
        | Except.ok true => Except.ok (extract_metadata body org, true)
        | Except.ok false => Except.ok (none, true)
      else Except.ok (none, false) := rfl

/-- A passing `entry and entry.get('rcsb_id')` guard means the body is a
dict whose identifier value is truthy. -/
theorem entryUsable_true {body : JValue} (h : entryUsable body = Except.ok true) :
    ∃ fs, body = JValue.obj fs ∧
      truthy ((jlookup fs "rcsb_id").getD JValue.null) = true := by
  cases body with
  | obj fs =>
    refine ⟨fs, rfl, ?_⟩
    unfold entryUsable at h
    split at h
    · injection h with hx
    · injection h with hx
      exact Bool.noConfusion hx
  | null =>
    unfold entryUsable at h
    split at h
    · exact Except.noConfusion h
    · injection h with hx; exact Bool.noConfusion hx
  | bool b =>
    unfold entryUsable at h
    split at h
    · exact Except.noConfusion h
    · injection h with hx; exact Bool.noConfusion hx
  | num n =>
    unfold entryUsable at h
    split at h
    · exact Except.noConfusion h
    · injection h with hx; exact Bool.noConfusion hx
  | str s =>
    unfold entryUsable at h
    split at h
    · exact Except.noConfusion h
    · injection h with hx; exact Bool.noConfusion hx
  | arr xs =>
    unfold entryUsable at h
    split at h
    · exact Except.noConfusion h
    · injection h with hx; exact Bool.noConfusion hx

/-- Extraction fails when the identifier field is absent: the direct
`entry['rcsb_id']` access raises, the `except` returns `None`. -/
theorem extract_none_of_no_id (fs : List (String × JValue)) (org : String)
    (h : jlookup fs "rcsb_id" = none) :
    extract_metadata (JValue.obj fs) org = none := by
  have hpg : pyGetKey (JValue.obj fs) "rcsb_id" = Except.error () := by
    simp only [pyGetKey, h]
  unfold extract_metadata
  rw [hpg]
  cases h1 : extractProteinName (JValue.obj fs) with
  | error u => rfl
  | ok a =>
    cases h2 : extractKeywords (JValue.obj fs) with
    | error u => rfl
    | ok b =>
      cases h3 : extractAuthors (JValue.obj fs) with
      | error u => rfl
      | ok c => rfl

/-- With the identifier present and every optional top-level field absent,
extraction succeeds and produces exactly the default record. -/
theorem extract_defaults (fs : List (String × JValue)) (org : String) (v : JValue)
    (hid : jlookup fs "rcsb_id" = some v)
    (h1 : jlookup fs "struct" = none)
    (h2 : jlookup fs "rcsb_primary_citation" = none)
    (h3 : jlookup fs "struct_keywords" = none)
    (h4 : jlookup fs "audit_author" = none)
    (h5 : jlookup fs "rcsb_entry_info" = none)
    (h6 : jlookup fs "exptl" = none)
    (h7 : jlookup fs "rcsb_accession_info" = none) :
    extract_metadata (JValue.obj fs) org =
      some ⟨v, JValue.str "Unknown Protein", org, JValue.null, JValue.str "Unknown",
            JValue.null, JValue.str "", JValue.null, [], JValue.str "", []⟩ := by
  have e1 : extractProteinName (JValue.obj fs) = Except.ok (JValue.str "Unknown Protein") := by
    simp [extractProteinName, dictGet, jlookup, truthy, h1, h2]
  have e2 : extractKeywords (JValue.obj fs) = Except.ok [] := by
    simp [extractKeywords, dictGet, jlookup, truthy, h3]
  have e3 : extractAuthors (JValue.obj fs) = Except.ok [] := by
    simp [extractAuthors, dictGet, jlookup, truthy, h4]
  have e4 : pyGetKey (JValue.obj fs) "rcsb_id" = Except.ok v := by
    simp only [pyGetKey, hid]
  have e5 : extractResolution (JValue.obj fs) = Except.ok JValue.null := by
    simp [extractResolution, dictGet, jlookup, pyIndex0, h5]
  have e6 : extractMethod (JValue.obj fs) = Except.ok (JValue.str "Unknown") := by
    simp [extractMethod, dictGet, jlookup, pyIndex0, h6]
  have e7 : extractReleaseDate (JValue.obj fs) = Except.ok JValue.null := by
    simp [extractReleaseDate, dictGet, jlookup, h7]
  have e8 : extractStructureTitle (JValue.obj fs) = Except.ok (JValue.str "") := by
    simp [extractStructureTitle, dictGet, jlookup, h1]
  have e9 : extractMolWeight (JValue.obj fs) = Except.ok JValue.null := by
    simp [extractMolWeight, dictGet, jlookup, h5]
  have e10 : extractClassification (JValue.obj fs) = Except.ok (JValue.str "") := by
    simp [extractClassification, dictGet, jlookup, h3]
  unfold extract_metadata
  rw [e1, e2, e3, e4, e5, e6, e7, e8, e9, e10]

/-- An extracted record's `pdb_id` and `keywords` are the values the
corresponding extractors computed. -/
theorem extract_fields {fs : List (String × JValue)} {org : String} {m : Metadata}
    (h : extract_metadata (JValue.obj fs) org = some m) :
    pyGetKey (JValue.obj fs) "rcsb_id" = Except.ok m.pdb_id ∧
    extractKeywords (JValue.obj fs) = Except.ok m.keywords := by
  unfold extract_metadata at h
  cases h1 : extractProteinName (JValue.obj fs) with
  | error u => rw [h1] at h; exact Option.noConfusion h
  | ok protein_name =>
  rw [h1] at h
  cases h2 : extractKeywords (JValue.obj fs) with
  | error u => rw [h2] at h; exact Option.noConfusion h
  | ok keywords =>
  rw [h2] at h
  cases h3 : extractAuthors (JValue.obj fs) with
  | error u => rw [h3] at h; exact Option.noConfusion h
  | ok authors =>
  rw [h3] at h
  cases h4 : pyGetKey (JValue.obj fs) "rcsb_id" with
  | error u => rw [h4] at h; exact Option.noConfusion h
  | ok pdb_id =>
  rw [h4] at h
  cases h5 : extractResolution (JValue.obj fs) with
  | error u => rw [h5] at h; exact Option.noConfusion h
  | ok resolution =>
  rw [h5] at h
  cases h6 : extractMethod (JValue.obj fs) with
  | error u => rw [h6] at h; exact Option.noConfusion h
  | ok method =>
  rw [h6] at h
  cases h7 : extractReleaseDate (JValue.obj fs) with
  | error u => rw [h7] at h; exact Option.noConfusion h
  | ok release_date =>
  rw [h7] at h
  cases h8 : extractStructureTitle (JValue.obj fs) with
  | error u => rw [h8] at h; exact Option.noConfusion h
  | ok structure_title =>
  rw [h8] at h
  cases h9 : extractMolWeight (JValue.obj fs) with
  | error u => rw [h9] at h; exact Option.noConfusion h
  | ok molecular_weight =>
  rw [h9] at h
  cases h10 : extractClassification (JValue.obj fs) with
  | error u => rw [h10] at h; exact Option.noConfusion h
  | ok classification =>
  rw [h10] at h
  injection h with hm
  subst hm
  exact ⟨rfl, rfl⟩

/-- The keyword list of a successful extraction is the split-and-trim of
the classification string when that is present and non-empty, and `[]`
when it is absent, empty, or falsy. -/
theorem extractKeywords_eq_classif {fs : List (String × JValue)} {l : List String}
    (h : extractKeywords (JValue.obj fs) = Except.ok l) :
    l = (match classifOf fs with
      | some (JValue.str s) => if s = "" then [] else (pySplitComma s).map strip
      | _ => []) := by
  cases hsk : jlookup fs "struct_keywords" with
  | none =>
    have he : extractKeywords (JValue.obj fs) = Except.ok [] := by
      simp [extractKeywords, dictGet, jlookup, truthy, hsk]
    rw [he] at h
    injection h with h1
    rw [← h1]
    simp [classifOf, hsk]
  | some w =>
    cases w with
    | obj g =>
      cases hpd : jlookup g "pdbx_keywords" with
      | none =>
        have he : extractKeywords (JValue.obj fs) = Except.ok [] := by
          simp [extractKeywords, dictGet, jlookup, truthy, hsk, hpd]
        rw [he] at h
        injection h with h1
        rw [← h1]
        simp [classifOf, hsk, hpd]
      | some kv =>
        by_cases htr : truthy kv = true
        · cases kv with
          | str s =>
            have hs : s ≠ "" := by simpa [truthy] using htr
            have he : extractKeywords (JValue.obj fs) =
                Except.ok ((pySplitComma s).map strip) := by
              simp [extractKeywords, dictGet, pyGetKey, jlookup, hsk, hpd, htr]
            rw [he] at h
            injection h with h1
            rw [← h1]
            simp [classifOf, hsk, hpd, hs]
          | null => exact absurd htr (by simp [truthy])
          | bool b =>
            have he : extractKeywords (JValue.obj fs) = Except.error () := by
              simp [extractKeywords, dictGet, pyGetKey, jlookup, hsk, hpd, htr]
            rw [he] at h
            exact Except.noConfusion h
          | num n =>
            have he : extractKeywords (JValue.obj fs) = Except.error () := by
              simp [extractKeywords, dictGet, pyGetKey, jlookup, hsk, hpd, htr]
            rw [he] at h
            exact Except.noConfusion h
          | arr xs =>
            have he : extractKeywords (JValue.obj fs) = Except.error () := by
              simp [extractKeywords, dictGet, pyGetKey, jlookup, hsk, hpd, htr]
            rw [he] at h
            exact Except.noConfusion h
          | obj g2 =>
            have he : extractKeywords (JValue.obj fs) = Except.error () := by
              simp [extractKeywords, dictGet, pyGetKey, jlookup, hsk, hpd, htr]
            rw [he] at h
            exact Except.noConfusion h
        · have hf : truthy kv = false := by simpa using htr
          have he : extractKeywords (JValue.obj fs) = Except.ok [] := by
            simp [extractKeywords, dictGet, jlookup, hsk, hpd, hf]
          rw [he] at h
          injection h with h1
          rw [← h1]
          cases kv with
          | str s =>
            have hse : s = "" := by simpa [truthy] using hf
            simp [classifOf, hsk, hpd, hse]
          | null => simp [classifOf, hsk, hpd]
          | bool b => simp [classifOf, hsk, hpd]
          | num n => simp [classifOf, hsk, hpd]
          | arr xs => simp [classifOf, hsk, hpd]
          | obj g2 => simp [classifOf, hsk, hpd]
    | null =>
      have he : extractKeywords (JValue.obj fs) = Except.error () := by
        simp [extractKeywords, dictGet, jlookup, hsk]
      rw [he] at h
      exact Except.noConfusion h
    | bool b =>
      have he : extractKeywords (JValue.obj fs) = Except.error () := by
        simp [extractKeywords, dictGet, jlookup, hsk]
      rw [he] at h
      exact Except.noConfusion h
    | num n =>
      have he : extractKeywords (JValue.obj fs) = Except.error () := by
        simp [extractKeywords, dictGet, jlookup, hsk]
      rw [he] at h
      exact Except.noConfusion h
    | str s =>
      have he : extractKeywords (JValue.obj fs) = Except.error () := by
        simp [extractKeywords, dictGet, jlookup, hsk]
      rw [he] at h
      exact Except.noConfusion h
    | arr xs =>
      have he : extractKeywords (JValue.obj fs) = Except.error () := by
        simp [extractKeywords, dictGet, jlookup, hsk]
      rw [he] at h
      exact Except.noConfusion h

/-- C5 as stated is false: an entry with a usable identifier can still fail
extraction when a present optional field is malformed — here `exptl` is
present but an empty list, so `entry.get('exptl', [{}])[0]` raises
`IndexError` and `extract_metadata` returns absent. -/
theorem C5_usable_id_counterexample :
    extract_metadata (JValue.obj [("rcsb_id", JValue.str "1ABC"),
        ("exptl", JValue.arr [])]) "Unknown" = none := rfl

/-- C5 amended: extraction returns absent when the identifier is missing;
with the identifier present, absent optional fields yield the stated
defaults and the record is produced; but a present-and-malformed optional
field (e.g. an empty `resolution_combined` list) also makes extraction
return absent. -/
theorem C5_extract_amended :
    (∀ fs org, jlookup fs "rcsb_id" = none →
      extract_metadata (JValue.obj fs) org = none)
    ∧ (∀ fs org v, jlookup fs "rcsb_id" = some v →
        jlookup fs "struct" = none →
        jlookup fs "rcsb_primary_citation" = none →
        jlookup fs "struct_keywords" = none →
        jlookup fs "audit_author" = none →
        jlookup fs "rcsb_entry_info" = none →
        jlookup fs "exptl" = none →
        jlookup fs "rcsb_accession_info" = none →
        extract_metadata (JValue.obj fs) org =
          some ⟨v, JValue.str "Unknown Protein", org, JValue.null,
                JValue.str "Unknown", JValue.null, JValue.str "", JValue.null,
                [], JValue.str "", []⟩)
    ∧ extract_metadata (JValue.obj [("rcsb_id", JValue.str "2XYZ"),
        ("rcsb_entry_info", JValue.obj [("resolution_combined", JValue.arr [])])])
        "Unknown" = none :=
  ⟨extract_none_of_no_id, extract_defaults, rfl⟩

/-- Witness for C5: a minimal entry holding only its identifier extracts to
the all-defaults record. -/
theorem C5_extract_amended_witness :
    extract_metadata (JValue.obj [("rcsb_id", JValue.str "9XYZ")]) "Homo sapiens" =
      some ⟨JValue.str "9XYZ", JValue.str "Unknown Protein", "Homo sapiens",
            JValue.null, JValue.str "Unknown", JValue.null, JValue.str "",
            JValue.null, [], JValue.str "", []⟩ :=
  C5_extract_amended.2.1 [("rcsb_id", JValue.str "9XYZ")] "Homo sapiens"
    (JValue.str "9XYZ") rfl rfl rfl rfl rfl rfl rfl rfl

/-- C6's conjunct "extraction returns absent for an empty identifier" is
false: `extract_metadata` itself returns a record whose `pdb_id` is the
empty string; only the orchestrator's truthiness guard keeps it out of the
output (second conjunct: the step emits no record). -/
theorem C6_empty_id_counterexample :
    (extract_metadata (JValue.obj [("rcsb_id", JValue.str "")]) "Unknown").isSome = true
    ∧ processStep (FetchOutcome.ok 200 (JValue.obj [("rcsb_id", JValue.str "")]))
        "Unknown" = Except.ok (none, true) := ⟨rfl, rfl⟩

/-- C6 amended: extraction returns absent when the identifier is missing,
and every record an orchestrator step emits has a truthy (non-null,
non-empty) `pdb_id`; an empty identifier is stopped by the orchestrator
guard rather than by extraction. -/
theorem C6_pdbid_invariant :
    (∀ fs org, jlookup fs "rcsb_id" = none →
      extract_metadata (JValue.obj fs) org = none)
    ∧ (∀ ef org m b, processStep ef org = Except.ok (some m, b) →
        truthy m.pdb_id = true ∧ m.pdb_id ≠ JValue.null ∧ m.pdb_id ≠ JValue.str "") := by
  refine ⟨extract_none_of_no_id, ?_⟩
  intro ef org m b h
  cases ef with
  | exn =>
    injection h with h1
    injection h1 with ha hb
    exact Option.noConfusion ha
  | ok code body =>
    rw [processStep_ok] at h
    by_cases hc : code = 200
    · rw [if_pos hc] at h
      cases hu : entryUsable body with
      | error u => rw [hu] at h; exact Except.noConfusion h
      | ok usable =>
        rw [hu] at h
        cases usable with
        | false =>
          injection h with h1
          injection h1 with ha hb
          exact Option.noConfusion ha
        | true =>
          injection h with h1
          injection h1 with ha hb
          obtain ⟨fs, hbody, htr⟩ := entryUsable_true hu
          subst hbody
          obtain ⟨hpd, -⟩ := extract_fields ha
          have hjl : jlookup fs "rcsb_id" = some m.pdb_id := by
            cases hj : jlookup fs "rcsb_id" with
            | none =>
              have hx : pyGetKey (JValue.obj fs) "rcsb_id" = Except.error () := by
                simp only [pyGetKey, hj]
              rw [hx] at hpd
              exact Except.noConfusion hpd
            | some w =>
              have hx : pyGetKey (JValue.obj fs) "rcsb_id" = Except.ok w := by
                simp only [pyGetKey, hj]
              rw [hx] at hpd
              injection hpd with hw
              rw [hw]
          rw [hjl] at htr
          have htr2 : truthy m.pdb_id = true := htr
          refine ⟨htr2, ?_, ?_⟩
          · intro hn
            rw [hn] at htr2
            exact absurd htr2 (by decide)
          · intro hn
            rw [hn] at htr2
            exact absurd htr2 (by decide)
    · rw [if_neg hc] at h
      injection h with h1
      injection h1 with ha hb
      exact Option.noConfusion ha

/-- Witness for C6 at a concrete step that emits a record. -/
theorem C6_pdbid_invariant_witness :
    truthy (JValue.str "1ABC") = true ∧ JValue.str "1ABC" ≠ JValue.null ∧
      JValue.str "1ABC" ≠ JValue.str "" :=
  C6_pdbid_invariant.2
    (FetchOutcome.ok 200 (JValue.obj [("rcsb_id", JValue.str "1ABC")])) "Unknown"
    ⟨JValue.str "1ABC", JValue.str "Unknown Protein", "Unknown", JValue.null,
     JValue.str "Unknown", JValue.null, JValue.str "", JValue.null, [],
     JValue.str "", []⟩ true rfl

/-- C7 as stated is false: the pacing delay is not applied after a failed
identifier.  The `Bool` in `processStep`'s result records whether
`time.sleep(0.3)` was reached: after a non-200 reply the loop executes
`continue` before the sleep, and a caught transport/decode error jumps to
the `except` clauses, also skipping it. -/
theorem C7_sleep_counterexample :
    processStep (FetchOutcome.ok 404 JValue.null) "Unknown" = Except.ok (none, false)
    ∧ processStep FetchOutcome.exn "Unknown" = Except.ok (none, false) := ⟨rfl, rfl⟩

/-- C7 amended: for every identifier whose processing does not crash, the
pacing delay is reached exactly when the entry fetch returned a 200 reply —
regardless of whether extraction then succeeded — and is skipped on a
non-200 reply or a caught transport/decode error. -/
theorem C7_sleep_amended :
    ∀ ef org r b, processStep ef org = Except.ok (r, b) →
      (b = true ↔ ∃ body, ef = FetchOutcome.ok 200 body) := by
  intro ef org r b h
  cases ef with
  | exn =>
    injection h with h1
    injection h1 with ha hb
    constructor
    · intro htrue
      rw [← hb] at htrue
      exact Bool.noConfusion htrue
    · rintro ⟨body, hbody⟩
      exact FetchOutcome.noConfusion hbody
  | ok code body =>
    rw [processStep_ok] at h
    by_cases hc : code = 200
    · subst hc
      constructor
      · intro _
        exact ⟨body, rfl⟩
      · intro _
        rw [if_pos rfl] at h
        cases hu : entryUsable body with
        | error u => rw [hu] at h; exact Except.noConfusion h
        | ok usable =>
          rw [hu] at h
          cases usable with
          | true =>
            injection h with h1
            injection h1 with ha hb
            exact hb.symm
          | false =>
            injection h with h1
            injection h1 with ha hb
            exact hb.symm
    · rw [if_neg hc] at h
      injection h with h1
      injection h1 with ha hb
      constructor
      · intro htrue
        rw [← hb] at htrue
        exact Bool.noConfusion htrue
      · rintro ⟨body2, hbody⟩
        injection hbody with hcode hbody2
        exact absurd hcode hc

/-- Witness for C7 at a 200 reply whose body fails the usability guard:
the sleep is still reached. -/
theorem C7_sleep_amended_witness :
    (true = true ↔ ∃ body, FetchOutcome.ok 200 (JValue.obj []) =
      FetchOutcome.ok 200 body) :=
  C7_sleep_amended (FetchOutcome.ok 200 (JValue.obj [])) "Unknown" none true rfl

/-- The accumulated identifier list never exceeds the target. -/
theorem fetchGo_length_le (pages : Nat → Nat → List String) (target : Nat) :
    ∀ starts acc, acc.length ≤ target →
      (fetchGo pages target starts acc).length ≤ target := by
  intro starts
  induction starts with
  | nil => intro acc h; exact h
  | cons s rest ih =>
    intro acc h
    simp only [fetchGo]
    split
    · exact h
    · split
      · rw [List.length_take]
        exact min_le_left _ _
      · rename_i htarget
        exact ih _ (by omega)

/-- If the first page comes back empty the run returns no identifiers and
never consults a later page. -/
theorem list_identifiers_first_empty (pages : Nat → Nat → List String)
    (target : Nat) (h0 : 0 < target) (h : pages 0 (min 100 target) = []) :
    list_identifiers pages target = [] := by
  unfold list_identifiers
  have hk : (target + 99) / 100 = ((target + 99) / 100 - 1) + 1 := by
    have hpos : 0 < (target + 99) / 100 := Nat.div_pos (by omega) (by omega)
    omega
  rw [hk, List.range'_succ]
  simp [fetchGo, h]

/-- C8 as stated is false: with an oracle that always returns one
identifier per page, no page is ever empty and the accumulated count never
reaches the target, yet `list_identifiers 200` stops after the two offsets
of `range(0, 200, 100)` and returns only two identifiers — the loop is
bounded by the offset range, not only by the two conditions the claim
names. -/
theorem C8_pagination_counterexample :
    list_identifiers (fun _ _ => ["id"]) 200 = ["id", "id"] ∧
      (["id", "id"] : List String).length ≠ 200 := ⟨rfl, by decide⟩

/-- C8 amended: the lister walks the bounded offsets
`range(0, target, 100)`, stopping early when a page is empty or the
accumulated count reaches the target; the result is truncated to at most
`target` identifiers, and an empty first page yields the empty result with
no dependence on later pages. -/
theorem C8_pagination_amended :
    ∀ (pages : Nat → Nat → List String) (target : Nat),
      (list_identifiers pages target).length ≤ target
      ∧ (0 < target → pages 0 (min 100 target) = [] →
          list_identifiers pages target = [])
      ∧ list_identifiers pages target =
          fetchGo pages target (List.range' 0 ((target + 99) / 100) 100) [] :=
  fun pages target =>
    ⟨fetchGo_length_le pages target _ [] (Nat.zero_le _),
     list_identifiers_first_empty pages target,
     rfl⟩

/-- Witness for C8: an all-empty oracle at target 500. -/
theorem C8_pagination_amended_witness :
    (list_identifiers (fun _ _ => []) 500).length ≤ 500 ∧
      list_identifiers (fun _ _ => []) 500 = [] :=
  ⟨(C8_pagination_amended (fun _ _ => []) 500).1,
   (C8_pagination_amended (fun _ _ => []) 500).2.1 (by decide) rfl⟩

/-- C9 as stated is false on a present-but-empty classification string:
the truthiness guard treats `""` like an absent field, so `keywords` is
`[]`, while splitting-and-trimming `""` would give `[""]`. -/
theorem C9_empty_classification_counterexample :
    extract_metadata (JValue.obj [("rcsb_id", JValue.str "1ABC"),
        ("struct_keywords", JValue.obj [("pdbx_keywords", JValue.str "")])])
        "Unknown" =
      some ⟨JValue.str "1ABC", JValue.str "Unknown Protein", "Unknown",
            JValue.null, JValue.str "Unknown", JValue.null, JValue.str "",
            JValue.null, [], JValue.str "", []⟩
    ∧ (pySplitComma "").map strip = [""]
    ∧ ([""] : List String) ≠ [] := ⟨rfl, rfl, by decide⟩

/-- C9 amended: for every successfully extracted record, `keywords` is the
comma-split, per-part-trimmed classification string when that string is
present and non-empty, and the empty sequence when it is absent, empty, or
falsy. -/
theorem C9_keywords_amended :
    ∀ fs org m, extract_metadata (JValue.obj fs) org = some m →
      m.keywords = (match classifOf fs with
        | some (JValue.str s) => if s = "" then [] else (pySplitComma s).map strip
        | _ => []) := by
  intro fs org m h
  obtain ⟨-, hkw⟩ := extract_fields h
  exact extractKeywords_eq_classif hkw

/-- Witness for C9: the fixture classification
`"HYDROLASE, ENZYME , TEST"` splits to `["HYDROLASE", "ENZYME", "TEST"]`. -/
theorem C9_keywords_amended_witness :
    extract_metadata (JValue.obj fsKW) "x" = some recKW ∧
    recKW.keywords = (match classifOf fsKW with
      | some (JValue.str s) => if s = "" then [] else (pySplitComma s).map strip
      | _ => []) ∧
    recKW.keywords = ["HYDROLASE", "ENZYME", "TEST"] :=
  ⟨rfl, C9_keywords_amended fsKW "x" recKW rfl, rfl⟩

end Pdb
